import Mathlib

/-!
Verification development for the AudioConnector server reference
implementation (Genesys AudioConnector to Ultravox/LiveKit bridge).

The definitions below are shallow embeddings of the repository's code:

* `G711` embeds the two mu-law codec implementations: the slow-path pair
  `ulawToLinearSlow` / `linearToUlawSlow` of `UltravoxService` (used to build
  its 256- and 65536-entry lookup tables) and the pair
  `ulawToLinearAC` / `linearToUlawAC` of `AudioConverter`.
  JavaScript bitwise idioms are modelled as follows: for an integer `b >= 0`,
  the JS expression `~b & 0xff` equals `255 - b % 256`; for a clamped signed
  16-bit value `x`, `(x >> 8) & 0x80` equals `0x80` exactly when `x < 0`;
  `~y & 0xff` for `0 <= y <= 255` equals `255 - y`.

* `AudioFx` embeds the audio-quality filters and the stateful conversion
  pipeline of `UltravoxService` (TS variant): noise gate, tanh soft limiter,
  single-pole smoothing filter with per-direction carried state, and the
  PCM16 <-> PCMU conversions.  Sample arithmetic, performed by JS in floating
  point, is modelled over the reals; `Math.tanh` is `Real.tanh`;
  `Math.round x` is `Int.floor (x + 1/2)`.

* `SessionM` embeds the `Session` class of the JS Ultravox variant
  (`src/common/session.js`): message creation and sequence numbering, inbound
  text-message validation, binary audio / DTMF processing with barge-in,
  transcript debouncing, the rate-limited outbound message queue, and close.
  Timer-driven behaviour is modelled with an explicit clock argument (`now`)
  and an explicit pending-timer field.

* `UVQueue` embeds the bounded audio queue of the JS `UltravoxService`
  (`sendAudio` / `processAudioQueue`).
-/

namespace G711

/-- Slow-path mu-law byte to linear sample decoder of `UltravoxService`
(`ulawToLinearSlow`): standard G.711 decode with bias `0x84`. -/
def ulawToLinearSlow (b : ℕ) : ℤ :=
  let u := 255 - b % 256
  let sign := u &&& 0x80
  let exponent := (u >>> 4) &&& 0x07
  let mantissa := u &&& 0x0f
  let sample : ℕ := (((mantissa <<< 3) + 0x84) <<< exponent) - 0x84
  if sign ≠ 0 then -(sample : ℤ) else (sample : ℤ)

/-- Slow-path linear sample to mu-law byte encoder of `UltravoxService`
(`linearToUlawSlow`): clamp to signed 16-bit, clip to 32635, add bias `0x84`,
find the segment exponent by comparing against the `expLuts` thresholds
(the loop starts at exponent 7 and decrements once per threshold the biased
sample is below), then assemble and complement the byte. -/
def linearToUlawSlow (x : ℤ) : ℕ :=
  let x₁ := max (-32768) (min 32767 x)
  let sign : ℕ := if x₁ < 0 then 0x80 else 0
  let m : ℕ := (if x₁ < 0 then -x₁ else x₁).toNat
  let m₁ := min m 32635
  let s := m₁ + 0x84
  let exponent : ℕ :=
    if 0x4000 ≤ s then 7 else if 0x2000 ≤ s then 6 else if 0x1000 ≤ s then 5
    else if 0x800 ≤ s then 4 else if 0x400 ≤ s then 3 else if 0x200 ≤ s then 2
    else if 0x100 ≤ s then 1 else 0
  let mantissa := (s >>> (exponent + 3)) &&& 0x0f
  255 - (sign ||| (exponent <<< 4) ||| mantissa)

/-- The `linearToUlaw` table lookup of `UltravoxService`: the 65536-entry
table holds `linearToUlawSlow (i - 32768)` at index `i`, and the lookup
clamps `sample + 32768` into the index range. -/
def linearToUlawTS (x : ℤ) : ℕ :=
  linearToUlawSlow (min 65535 (max 0 (x + 32768)) - 32768)

/-- The mu-law decoder of `AudioConverter` (`ulawToLinear`): note that unlike
the G.711 standard it reconstructs `mantissa << (exponent + 3)` plus a
half-step `1 << (exponent + 2)` only for nonzero exponents, omitting the
bias term. -/
def ulawToLinearAC (b : ℕ) : ℤ :=
  let u := 255 - b % 256
  let sign := u &&& 0x80
  let exponent := (u >>> 4) &&& 0x07
  let mantissa := u &&& 0x0f
  let sample : ℕ := (mantissa <<< (exponent + 3)) +
    (if exponent ≠ 0 then 1 <<< (exponent + 2) else 0)
  if sign ≠ 0 then -(sample : ℤ) else (sample : ℤ)

/-- The exponent-search loop of `AudioConverter.linearToUlaw`:
`while (temp !== 0 && exponent < 7) { temp >>= 1; exponent++; }`.
The fuel argument (always started at 7) renders the `exponent < 7` guard. -/
def acExpLoop : ℕ → ℕ → ℕ → ℕ
  | 0, _, e => e
  | _ + 1, 0, e => e
  | f + 1, t + 1, e => acExpLoop f ((t + 1) >>> 1) (e + 1)

/-- The mu-law encoder of `AudioConverter` (`linearToUlaw`): clip to 32635,
add bias 33, search the exponent by shifting `sample >> 6` until zero,
then assemble and complement the byte. -/
def linearToUlawAC (x : ℤ) : ℕ :=
  let sign : ℕ := if x < 0 then 0x80 else 0
  let m : ℕ := (if x < 0 then -x else x).toNat
  let m₁ := min m 32635
  let s := m₁ + 33
  let exponent := acExpLoop 7 (s >>> 6) 0
  let mantissa := (s >>> (exponent + 3)) &&& 0x0f
  255 - (sign ||| (exponent <<< 4) ||| mantissa)

end G711

namespace AudioFx

/-- JS `Math.round` (round half toward positive infinity) on a real. -/
noncomputable def jsRound (x : ℝ) : ℤ := ⌊x + 1 / 2⌋

/-- JS `Math.round` on a rational (used where the surrounding math is exact). -/
def jsRoundQ (x : ℚ) : ℤ := ⌊x + 1 / 2⌋

/-- `UltravoxService.applyNoiseGate`: zero every sample whose absolute value
is below the threshold. -/
noncomputable def applyNoiseGate (samples : List ℝ) (threshold : ℝ) : List ℝ :=
  samples.map (fun sample => if |sample| < threshold then 0 else sample)

/-- One sample of `UltravoxService.applySoftLimiting`: samples beyond the
limit are compressed with `sign * tanh(|sample| / limit) * limit`. -/
noncomputable def uvLimitSample (limit sample : ℝ) : ℝ :=
  if limit < |sample| then
    (if 0 ≤ sample then 1 else -1) * (Real.tanh (|sample| / limit) * limit)
  else sample

/-- `UltravoxService.applySoftLimiting` over a frame. -/
noncomputable def applySoftLimiting (samples : List ℝ) (limit : ℝ) : List ℝ :=
  samples.map (uvLimitSample limit)

/-- The loop body of `UltravoxService.applySmoothingFilter`:
`smoothed[i] = alpha * samples[i] + (1 - alpha) * smoothed[i-1]`, seeded
with the carried previous sample. -/
noncomputable def smoothGo (alpha prev : ℝ) : List ℝ → List ℝ
  | [] => []
  | sample :: rest =>
    let y := alpha * sample + (1 - alpha) * prev
    y :: smoothGo alpha y rest

/-- `UltravoxService.applySmoothingFilter` with `alpha = 0.95`: returns the
smoothed frame and the new carried last sample (the previous sample when the
frame is empty, matching the early return in the code). -/
noncomputable def applySmoothingFilter (samples : List ℝ) (previousSample : ℝ) :
    List ℝ × ℝ :=
  let out := smoothGo 0.95 previousSample samples
  (out, out.getLastD previousSample)

/-- Little-endian byte pair of a 16-bit store: `[s & 0xff, (s >> 8) & 0xff]`. -/
def int16PackLE (s : ℤ) : List ℤ := [s.emod 256, (Int.fdiv s 256).emod 256]

/-- The per-direction carried smoothing state of `UltravoxService`
(`lastInputSample` for peer-to-agent, `lastOutputSample` for agent-to-peer). -/
structure ServiceState where
  lastInputSample : ℝ
  lastOutputSample : ℝ

/-- The PCM16-byte-pair decoding loop of `UltravoxService.convertPcm16ToPcmu`:
`for (i = 0; i < pcmBytes.length - 1; i += 2)` assembles
`low | (high << 8)` and sign-extends; a trailing unpaired byte is never
visited by the loop. -/
def toLinearSamples : List ℕ → List ℤ
  | lo :: hi :: rest =>
    (let s := lo ||| (hi <<< 8)
     if 32767 < s then (s : ℤ) - 65536 else (s : ℤ)) :: toLinearSamples rest
  | _ => []

/-- `UltravoxService.convertPcmuToPcm16`: decode mu-law bytes through the
lookup table, noise-gate at 50, soft-limit at 28000, smooth with the carried
`lastInputSample` (which is then updated), round and pack little-endian. -/
noncomputable def convertPcmuToPcm16 (st : ServiceState) (pcmuBuffer : List ℕ) :
    ServiceState × List ℤ :=
  let linearSamples : List ℝ := pcmuBuffer.map (fun b => ((G711.ulawToLinearSlow b : ℤ) : ℝ))
  let processedSamples := applyNoiseGate linearSamples 50
  let limitedSamples := applySoftLimiting processedSamples 28000
  let res := applySmoothingFilter limitedSamples st.lastInputSample
  ({ st with lastInputSample := res.2 },
   (res.1.map jsRound).flatMap int16PackLE)

/-- `UltravoxService.convertPcm16ToPcmu`: decode byte pairs, noise-gate at 50,
soft-limit at 28000, smooth with the carried `lastOutputSample` (which is
then updated), round and encode through the mu-law lookup table. -/
noncomputable def convertPcm16ToPcmu (st : ServiceState) (pcm16Buffer : List ℕ) :
    ServiceState × List ℕ :=
  let linearSamples : List ℝ := (toLinearSamples pcm16Buffer).map (fun s => ((s : ℤ) : ℝ))
  let processedSamples := applyNoiseGate linearSamples 50
  let limitedSamples := applySoftLimiting processedSamples 28000
  let res := applySmoothingFilter limitedSamples st.lastOutputSample
  ({ st with lastOutputSample := res.2 },
   res.1.map (fun sample => G711.linearToUlawTS (jsRound sample)))

/-- One sample of `AudioConverter.applySoftLimiting` (the soft-knee variant):
`ratio = threshold / |sample|`, `softRatio = ratio + (1 - ratio) * 0.3`,
output `Math.round(sample * softRatio)`; in-range samples pass through. -/
def acLimitSample (threshold : ℚ) (sample : ℤ) : ℤ :=
  if threshold < |(sample : ℚ)| then
    let ratio := threshold / |(sample : ℚ)|
    let softRatio := ratio + (1 - ratio) * 0.3
    jsRoundQ ((sample : ℚ) * softRatio)
  else sample

/-- `AudioConverter.applySoftLimiting` over a frame of 16-bit samples. -/
def acApplySoftLimiting (buffer : List ℤ) (threshold : ℚ) : List ℤ :=
  buffer.map (acLimitSample threshold)

/-- `AudioConverter.convertPcmuToPcm16`: table-decode each mu-law byte and
store the 16-bit results little-endian. -/
def acConvertPcmuToPcm16 (pcmuBuffer : List ℕ) : List ℤ :=
  (pcmuBuffer.map G711.ulawToLinearAC).flatMap int16PackLE

end AudioFx

namespace SessionM

/-- Parameters of an outbound server message (`createMessage`'s `type` and
`parameters` arguments): an `event` with its entity type tags, a `disconnect`
with reason and info, or a `closed` message. -/
inductive Body
  | event (entities : List String)
  | disconnectB (reason info : String)
  | closedB
  deriving DecidableEq

/-- An outbound server message as built by `Session.createMessage`. -/
structure Msg where
  id : String
  version : String
  seq : ℕ
  clientseq : ℕ
  body : Body
  deriving DecidableEq

/-- A buffered transcript (`this.transcriptBuffer`). -/
structure TEntry where
  text : String
  confidence : ℚ
  isFinal : Bool
  role : Option String
  deriving DecidableEq

/-- The mutable state of a `Session` (JS Ultravox variant).  WebSocket and
bridge handles are modelled by status flags; `transcriptTimer` holds the
delay of the pending debounce timer, if one is scheduled; times are an
abstract monotone millisecond clock. -/
structure State where
  closed : Bool
  disconnecting : Bool
  isCapturingDTMF : Bool
  isAudioPlaying : Bool
  wsOpen : Bool
  lastServerSeq : ℕ
  lastClientSeq : ℕ
  clientSessionId : String
  bridgeExists : Bool
  bridgeConnected : Bool
  messageQueue : List Msg
  audioIntervalSet : Bool
  transcriptTimer : Option ℕ
  transcriptBuffer : Option TEntry
  lastTranscriptSent : ℕ
  selectedChannel : Bool
  dtmfExists : Bool
  dtmfComplete : Bool
  deriving DecidableEq

/-- Observable side effects of a session operation: a JSON write on the
telephony socket, closing that socket, calls into the agent bridge
(`ultravoxService`), a digit handed to the DTMF collector, timer
cancellations, and the dispatch of an inbound message to its type handler. -/
inductive Eff
  | wsWrite (m : Msg)
  | wsClose
  | bridgeDisconnect
  | bridgeAudio (frame : List ℕ)
  | bridgeMsg (text : String)
  | dtmfDigit (d : String)
  | dispatch (ty : String)
  | clearAudioInterval
  | clearTranscriptTimer
  deriving DecidableEq

/-- Result of a session operation: the new state, the emitted effects in
order, and the outbound messages created (through `createMessage`) during the
operation, in creation order. -/
structure Res where
  state : State
  effs : List Eff
  created : List Msg
  deriving DecidableEq

/-- An inbound control message as read by `processTextMessage`. -/
structure InMsg where
  seq : ℕ
  serverseq : ℕ
  id : String
  ty : String
  deriving DecidableEq

/-- `Session.createMessage`: stamps the message with the pre-incremented
server sequence number and the current `lastClientSequenceNumber`, at
creation time. -/
def createMessage (s : State) (body : Body) : Msg × State :=
  (⟨s.clientSessionId, "2", s.lastServerSeq + 1, s.lastClientSeq, body⟩,
   { s with lastServerSeq := s.lastServerSeq + 1 })

/-- `Session.sendImmediate`: write directly on the socket, dropped when the
session is closed or the socket is no longer open. -/
def sendImmediate (s : State) (m : Msg) : List Eff :=
  if s.closed || !s.wsOpen then [] else [Eff.wsWrite m]

/-- `Session.queueMessage`: append to the rate-limited outbound queue (the
paced drain is `drainQueue`). -/
def queueMessage (s : State) (m : Msg) : State :=
  { s with messageQueue := s.messageQueue ++ [m] }

/-- `Session.processMessageQueue`: drain the outbound queue in FIFO order,
sending each message through `sendImmediate` (whose closed / socket checks
are state that the drain itself does not change). -/
def drainQueue (s : State) : Res :=
  ⟨{ s with messageQueue := [] },
   if s.closed || !s.wsOpen then [] else s.messageQueue.map Eff.wsWrite,
   []⟩

/-- `Session.sendBargeIn`: create a `barge_in` event and send it immediately
(urgent path, bypassing the queue). -/
def sendBargeIn (s : State) : Res :=
  let r := createMessage s (Body.event ["barge_in"])
  ⟨r.2, sendImmediate r.2 r.1, [r.1]⟩

/-- `Session.sendTurnResponse`: create a `bot_turn_response` event and queue
it on the paced path. -/
def sendTurnResponse (s : State) : Res :=
  let r := createMessage s (Body.event ["bot_turn_response"])
  ⟨queueMessage r.2 r.1, [], [r.1]⟩

/-- `Session.sendDisconnect`: mark the session disconnecting, create the
disconnect message and send it immediately. -/
def sendDisconnect (s : State) (reason info : String) : Res :=
  let s₀ := { s with disconnecting := true }
  let r := createMessage s₀ (Body.disconnectB reason info)
  ⟨r.2, sendImmediate r.2 r.1, [r.1]⟩

/-- `Session.sendClosed`: create the `closed` message and send it
immediately. -/
def sendClosed (s : State) : Res :=
  let r := createMessage s Body.closedB
  ⟨r.2, sendImmediate r.2 r.1, [r.1]⟩

/-- `Session.sendTranscriptionImmediate`: if a negotiated channel exists,
create the transcript event, queue it on the paced path and record the send
time; otherwise log and do nothing. -/
def sendTranscriptionImmediate (s : State) (now : ℕ) (_entry : TEntry) : Res :=
  if s.selectedChannel then
    let r := createMessage s (Body.event ["transcript"])
    ⟨{ queueMessage r.2 r.1 with lastTranscriptSent := now }, [], [r.1]⟩
  else ⟨s, [], []⟩

/-- `Session.sendTranscription` (debounced transcript path).  The latest
transcript is buffered; a final transcript is flushed immediately (the code
returns before the `clearTimeout`, and passes no role on this path); a
non-final transcript clears any pending timer, then is flushed immediately
when the minimum interval has elapsed and otherwise schedules a delayed
flush for the remaining time. -/
def sendTranscription (s : State) (now : ℕ) (t : String) (c : ℚ)
    (isFinal : Bool) (role : Option String) : Res :=
  let s₀ := { s with transcriptBuffer := some ⟨t, c, isFinal, role⟩ }
  if isFinal then sendTranscriptionImmediate s₀ now ⟨t, c, isFinal, none⟩
  else
    let clearEffs := if s₀.transcriptTimer.isSome then [Eff.clearTranscriptTimer] else []
    let s₁ := { s₀ with transcriptTimer := none }
    if s₀.lastTranscriptSent + 50 ≤ now then
      let r := sendTranscriptionImmediate s₁ now ⟨t, c, isFinal, role⟩
      ⟨r.state, clearEffs ++ r.effs, r.created⟩
    else
      ⟨{ s₁ with transcriptTimer := some (s₀.lastTranscriptSent + 50 - now) },
       clearEffs, []⟩

/-- Firing of the transcript debounce timer: flush the buffered transcript
if one is present (the callback re-reads `this.transcriptBuffer`).  The
pending timer is consumed by firing. -/
def transcriptTimerFire (s : State) (now : ℕ) : Res :=
  let s₀ := { s with transcriptTimer := none }
  match s₀.transcriptBuffer with
  | some e => sendTranscriptionImmediate s₀ now e
  | none => ⟨s₀, [], []⟩

/-- `Session.processTextMessage`: ignore when closed; validate the client
sequence number, then record it, then validate the server sequence number
and the session id (each failure sends one fatal `error` disconnect);
finally dispatch to the registered handler for the message type, ignoring
unknown types. -/
def processTextMessage (handlers : String → Bool) (m : InMsg) (s : State) : Res :=
  if s.closed then ⟨s, [], []⟩
  else if m.seq ≠ s.lastClientSeq + 1 then
    sendDisconnect s "error" "Invalid client sequence number."
  else
    let s₁ := { s with lastClientSeq := m.seq }
    if s₁.lastServerSeq < m.serverseq then
      sendDisconnect s₁ "error" "Invalid server sequence number."
    else if m.id ≠ s₁.clientSessionId then
      sendDisconnect s₁ "error" "Invalid ID specified."
    else if handlers m.ty then ⟨s₁, [Eff.dispatch m.ty], []⟩
    else ⟨s₁, [], []⟩

/-- `Session.processBinaryMessage`: ignored while disconnecting, closed or
capturing DTMF; barge in (urgently) and clear the playing flag if agent
audio is playing; then forward the frame to the agent bridge if connected. -/
def processBinaryMessage (s : State) (frame : List ℕ) : Res :=
  if s.disconnecting || s.closed then ⟨s, [], []⟩
  else if s.isCapturingDTMF then ⟨s, [], []⟩
  else
    let r₁ : Res :=
      if s.isAudioPlaying then
        let rb := sendBargeIn s
        ⟨{ rb.state with isAudioPlaying := false }, rb.effs, rb.created⟩
      else ⟨s, [], []⟩
    let effs₂ :=
      if r₁.state.bridgeExists && r₁.state.bridgeConnected then
        [Eff.bridgeAudio frame]
      else []
    ⟨r₁.state, r₁.effs ++ effs₂, r₁.created⟩

/-- `Session.processDTMF`: ignored while disconnecting or closed; barge in
like binary audio; set the capturing flag; recreate the DTMF collector when
absent or complete; forward the digit. -/
def processDTMF (s : State) (digit : String) : Res :=
  if s.disconnecting || s.closed then ⟨s, [], []⟩
  else
    let r₁ : Res :=
      if s.isAudioPlaying then
        let rb := sendBargeIn s
        ⟨{ rb.state with isAudioPlaying := false }, rb.effs, rb.created⟩
      else ⟨s, [], []⟩
    let s₂ := { r₁.state with isCapturingDTMF := true }
    let s₃ :=
      if !s₂.dtmfExists || s₂.dtmfComplete then
        { s₂ with dtmfExists := true, dtmfComplete := false }
      else s₂
    ⟨s₃, r₁.effs ++ [Eff.dtmfDigit digit], r₁.created⟩

/-- `Session.close`: idempotent; on the first call cancel the audio interval
and transcript timer if set, disconnect the agent bridge if present, attempt
to close the socket, and set `closed`. -/
def close (s : State) : Res :=
  if s.closed then ⟨s, [], []⟩
  else
    let e₁ := if s.audioIntervalSet then [Eff.clearAudioInterval] else []
    let e₂ := if s.transcriptTimer.isSome then [Eff.clearTranscriptTimer] else []
    let e₃ := if s.bridgeExists then [Eff.bridgeDisconnect] else []
    ⟨{ s with closed := true }, e₁ ++ e₂ ++ e₃ ++ [Eff.wsClose], []⟩

/-- The session operations, for stating whole-session invariants. -/
inductive Op
  | text (handlers : String → Bool) (m : InMsg)
  | binary (frame : List ℕ)
  | dtmf (d : String)
  | closeOp
  | turnResp
  | bargeIn
  | disconnectOp (reason info : String)
  | closedMsg
  | transcript (now : ℕ) (t : String) (c : ℚ) (isFinal : Bool) (role : Option String)
  | timerFire (now : ℕ)
  | drain

/-- Interpretation of one session operation. -/
def step : Op → State → Res
  | Op.text handlers m, s => processTextMessage handlers m s
  | Op.binary frame, s => processBinaryMessage s frame
  | Op.dtmf d, s => processDTMF s d
  | Op.closeOp, s => close s
  | Op.turnResp, s => sendTurnResponse s
  | Op.bargeIn, s => sendBargeIn s
  | Op.disconnectOp r i, s => sendDisconnect s r i
  | Op.closedMsg, s => sendClosed s
  | Op.transcript now t c f role, s => sendTranscription s now t c f role
  | Op.timerFire now, s => transcriptTimerFire s now
  | Op.drain, s => drainQueue s

/-- Run a list of session operations, concatenating effects and created
messages in order. -/
def runOps (s : State) : List Op → Res
  | [] => ⟨s, [], []⟩
  | op :: ops =>
    let r := step op s
    let r₂ := runOps r.state ops
    ⟨r₂.state, r.effs ++ r₂.effs, r.created ++ r₂.created⟩

/-- Effects that reach the outside world: socket writes, socket close,
agent-bridge calls and DTMF-collector calls (as opposed to timer
cancellations and handler dispatch bookkeeping). -/
def isWireEff : Eff → Bool
  | Eff.wsWrite _ => true
  | Eff.wsClose => true
  | Eff.bridgeDisconnect => true
  | Eff.bridgeAudio _ => true
  | Eff.bridgeMsg _ => true
  | Eff.dtmfDigit _ => true
  | _ => false

/-- Whether an effect writes a `disconnect` message with reason `error`. -/
def isErrorDisconnectEff : Eff → Bool
  | Eff.wsWrite m =>
    match m.body with
    | Body.disconnectB reason _ => reason == "error"
    | _ => false
  | _ => false

/-- Whether an effect is a handler dispatch. -/
def isDispatchEff : Eff → Bool
  | Eff.dispatch _ => true
  | _ => false

/-- The barge-in message as created from state `s`. -/
def bargeMsg (s : State) : Msg := (createMessage s (Body.event ["barge_in"])).1

/-- A freshly constructed session (the constructor's field initialisation)
with client session id `sid`, an open socket and, for transcript sending, a
negotiated channel. -/
def freshState (sid : String) : State :=
  { closed := false, disconnecting := false, isCapturingDTMF := false,
    isAudioPlaying := false, wsOpen := true, lastServerSeq := 0,
    lastClientSeq := 0, clientSessionId := sid, bridgeExists := false,
    bridgeConnected := false, messageQueue := [], audioIntervalSet := false,
    transcriptTimer := none, transcriptBuffer := none, lastTranscriptSent := 0,
    selectedChannel := true, dtmfExists := false, dtmfComplete := false }

end SessionM

namespace UVQueue

/-- The audio-queue-relevant state of the JS `UltravoxService`: connection
flags and the queue of raw PCMU chunks awaiting conversion and delivery. -/
structure UState where
  isConnected : Bool
  hasWs : Bool
  wsOpen : Bool
  audioQueue : List (List ℕ)
  deriving DecidableEq

/-- `this.maxAudioQueueSize`. -/
def maxAudioQueueSize : ℕ := 10

/-- Effects of the audio pump: a converted chunk written to the agent
websocket. -/
inductive UEff
  | agentSend (pcm16Bytes : List ℤ)
  deriving DecidableEq

/-- `UltravoxService.sendAudio` (JS variant): ignore when not connected;
push the chunk, then drop the oldest queued chunk if the queue has grown
beyond `maxAudioQueueSize`. -/
def sendAudio (st : UState) (chunk : List ℕ) : UState :=
  if !st.isConnected || !st.hasWs then st
  else
    let q := st.audioQueue ++ [chunk]
    if maxAudioQueueSize < q.length then { st with audioQueue := q.drop 1 }
    else { st with audioQueue := q }

/-- `UltravoxService.processAudioQueue` (JS variant, one timer tick): if the
queue is non-empty and the service is connected, shift the oldest chunk,
convert it with `AudioConverter.convertPcmuToPcm16`, and send it to the
agent websocket when that socket is open. -/
def processAudioQueue (st : UState) : UState × List UEff :=
  match st.audioQueue with
  | [] => (st, [])
  | c :: rest =>
    if st.isConnected then
      ({ st with audioQueue := rest },
       if st.hasWs && st.wsOpen then [UEff.agentSend (AudioFx.acConvertPcmuToPcm16 c)]
       else [])
    else (st, [])

/-- Operations touching the audio queue. -/
inductive UOp
  | uSend (chunk : List ℕ)
  | uTick

/-- Run a list of audio-queue operations (state only). -/
def runUOps (st : UState) : List UOp → UState
  | [] => st
  | UOp.uSend c :: ops => runUOps (sendAudio st c) ops
  | UOp.uTick :: ops => runUOps (processAudioQueue st).1 ops

/-- A freshly constructed, connected service with an empty audio queue. -/
def initU : UState :=
  { isConnected := true, hasWs := true, wsOpen := true, audioQueue := [] }

end UVQueue

/-- C3 counterexample: in the `AudioConverter` implementation the round trip
fails on the canonical codeword `0xff` (the positive-zero code, distinct from
the denormalized `0x7f`): it decodes to 0 and re-encodes to `0xfb`, not
`0xff`. -/
theorem c3_counterexample :
    G711.linearToUlawAC (G711.ulawToLinearAC 255) = 251 ∧ (255 : ℕ) ≠ 127 ∧
    G711.ulawToLinearAC 255 = 0 := by decide

set_option maxRecDepth 8000 in
/-- C3 (amended): for every mu-law byte except the denormalized negative-zero
codeword `0x7f`, decoding with `UltravoxService.ulawToLinearSlow` and
re-encoding with `linearToUlawSlow` (equivalently, through the clamped
lookup-table path `linearToUlawTS`) reproduces the byte; the `AudioConverter`
pair does not have this property. -/
theorem c3_roundtrip_slow (b : ℕ) (hb : b < 256) (hb7 : b ≠ 127) :
    G711.linearToUlawSlow (G711.ulawToLinearSlow b) = b ∧
    G711.linearToUlawTS (G711.ulawToLinearSlow b) = b := by
  revert hb7
  revert b
  decide

/-- C3 witness: the round trip at the concrete canonical byte `0xff`. -/
theorem c3_witness :
    G711.linearToUlawSlow (G711.ulawToLinearSlow 255) = 255 ∧
    G711.linearToUlawTS (G711.ulawToLinearSlow 255) = 255 :=
  c3_roundtrip_slow 255 (by decide) (by decide)

/-- Helper: the sequence numbers of the messages created by one session
operation form the gapless range starting right after the state's server
sequence counter, which advances by exactly the number of created messages. -/
theorem step_created_seq (op : SessionM.Op) (s : SessionM.State) :
    (SessionM.step op s).created.map SessionM.Msg.seq =
      List.range' (s.lastServerSeq + 1) (SessionM.step op s).created.length ∧
    (SessionM.step op s).state.lastServerSeq =
      s.lastServerSeq + (SessionM.step op s).created.length := by
  cases op <;>
    simp only [SessionM.step, SessionM.processTextMessage, SessionM.processBinaryMessage,
      SessionM.processDTMF, SessionM.close, SessionM.sendTurnResponse,
      SessionM.sendBargeIn, SessionM.sendDisconnect, SessionM.sendClosed,
      SessionM.sendTranscription, SessionM.sendTranscriptionImmediate,
      SessionM.transcriptTimerFire, SessionM.drainQueue, SessionM.queueMessage,
      SessionM.createMessage, SessionM.sendImmediate] <;>
    (repeat' split) <;> simp [List.range'_one]

/-- Helper: over any sequence of session operations, created messages carry
the gapless range of sequence numbers continuing the state's counter. -/
theorem runOps_created_seq (ops : List SessionM.Op) : ∀ s : SessionM.State,
    (SessionM.runOps s ops).created.map SessionM.Msg.seq =
      List.range' (s.lastServerSeq + 1) (SessionM.runOps s ops).created.length ∧
    (SessionM.runOps s ops).state.lastServerSeq =
      s.lastServerSeq + (SessionM.runOps s ops).created.length := by
  induction ops with
  | nil => intro s; simp [SessionM.runOps]
  | cons op ops ih =>
    intro s
    have h1 := step_created_seq op s
    have h2 := ih (SessionM.step op s).state
    constructor
    · simp only [SessionM.runOps, List.map_append, List.length_append]
      rw [h1.1, h2.1, h1.2]
      have happ := List.range'_append (s.lastServerSeq + 1)
        (SessionM.step op s).created.length
        (SessionM.runOps (SessionM.step op s).state ops).created.length 1
      rw [one_mul] at happ
      rw [show s.lastServerSeq + (SessionM.step op s).created.length + 1 =
            s.lastServerSeq + 1 + (SessionM.step op s).created.length by omega]
      rw [happ]
      congr 1
      omega
    · simp only [SessionM.runOps, List.length_append]
      rw [h2.2, h1.2]
      omega

/-- C2: outbound control messages are numbered at creation time: every
message built by `createMessage` is stamped with `lastServerSeq + 1` as `seq`
and the current `lastClientSeq` as `clientseq`, and the counter advances with
the message; over any sequence of session operations the created messages
carry strictly increasing, gapless sequence numbers (1, 2, 3, ... from a
fresh session); and draining the rate-limiting queue dispatches the already
stamped messages unchanged, in FIFO order. -/
theorem c2_outbound_sequence_numbering :
    (∀ (s : SessionM.State) (body : SessionM.Body),
      (SessionM.createMessage s body).1.seq = s.lastServerSeq + 1 ∧
      (SessionM.createMessage s body).1.clientseq = s.lastClientSeq ∧
      (SessionM.createMessage s body).2.lastServerSeq = s.lastServerSeq + 1) ∧
    (∀ (s : SessionM.State) (ops : List SessionM.Op),
      (SessionM.runOps s ops).created.map SessionM.Msg.seq =
        List.range' (s.lastServerSeq + 1) (SessionM.runOps s ops).created.length ∧
      (SessionM.runOps s ops).state.lastServerSeq =
        s.lastServerSeq + (SessionM.runOps s ops).created.length) ∧
    (∀ (sid : String) (ops : List SessionM.Op),
      (SessionM.runOps (SessionM.freshState sid) ops).created.map SessionM.Msg.seq =
        List.range' 1 (SessionM.runOps (SessionM.freshState sid) ops).created.length) ∧
    (∀ s : SessionM.State, s.closed = false → s.wsOpen = true →
      (SessionM.drainQueue s).effs = s.messageQueue.map SessionM.Eff.wsWrite ∧
      (SessionM.drainQueue s).state.messageQueue = []) := by
  refine ⟨fun s body => ⟨rfl, rfl, rfl⟩, fun s ops => runOps_created_seq ops s,
    fun sid ops => ?_, fun s h1 h2 => ?_⟩
  · simpa using (runOps_created_seq ops (SessionM.freshState sid)).1
  · constructor
    · simp [SessionM.drainQueue, h1, h2]
    · rfl

/-- C2 witness: on a session with one queued message, the drain dispatches
exactly that message; instantiates the queue-drain conjunct at a concrete
state. -/
theorem c2_witness :
    (SessionM.drainQueue
        { SessionM.freshState "S1" with
            messageQueue := [⟨"S1", "2", 1, 0, SessionM.Body.closedB⟩] }).effs =
      ({ SessionM.freshState "S1" with
          messageQueue := [⟨"S1", "2", 1, 0, SessionM.Body.closedB⟩] } :
        SessionM.State).messageQueue.map SessionM.Eff.wsWrite ∧
    (SessionM.drainQueue
        { SessionM.freshState "S1" with
            messageQueue := [⟨"S1", "2", 1, 0, SessionM.Body.closedB⟩] }).state.messageQueue =
      [] :=
  c2_outbound_sequence_numbering.2.2.2 _ rfl rfl

/-- C1 (amended): on a non-closed session with an open socket, an inbound
control message is dispatched to its type handler only when all three checks
pass (`seq = lastClientSeq + 1`, `serverseq <= lastServerSeq`,
`id = clientSessionId`); when any check fails exactly one `error` disconnect
is written and nothing is dispatched; but `lastClientSeq` is updated as soon
as the seq check passes, even when the serverseq or id check subsequently
fails -- only a seq-check failure leaves it unchanged. -/
theorem c1_processTextMessage_validation (handlers : String → Bool)
    (m : SessionM.InMsg) (s : SessionM.State)
    (hc : s.closed = false) (hw : s.wsOpen = true) :
    (m.seq = s.lastClientSeq + 1 → m.serverseq ≤ s.lastServerSeq →
      m.id = s.clientSessionId →
      SessionM.processTextMessage handlers m s =
        ⟨{ s with lastClientSeq := m.seq },
         if handlers m.ty then [SessionM.Eff.dispatch m.ty] else [], []⟩) ∧
    (¬(m.seq = s.lastClientSeq + 1 ∧ m.serverseq ≤ s.lastServerSeq ∧
        m.id = s.clientSessionId) →
      (SessionM.processTextMessage handlers m s).effs.countP
          SessionM.isErrorDisconnectEff = 1 ∧
      (SessionM.processTextMessage handlers m s).effs.countP
          SessionM.isDispatchEff = 0 ∧
      (SessionM.processTextMessage handlers m s).state.disconnecting = true) ∧
    (SessionM.processTextMessage handlers m s).state.lastClientSeq =
      (if m.seq = s.lastClientSeq + 1 then m.seq else s.lastClientSeq) := by
  refine ⟨?_, ?_, ?_⟩
  · intro h1 h2 h3
    by_cases h4 : handlers m.ty <;>
      simp [SessionM.processTextMessage, hc, h1, h3, h4, Nat.not_lt.mpr h2]
  · intro hfail
    by_cases h1 : m.seq = s.lastClientSeq + 1
    · by_cases h2 : m.serverseq ≤ s.lastServerSeq
      · have h3 : m.id ≠ s.clientSessionId := by
          intro h3; exact hfail ⟨h1, h2, h3⟩
        simp [SessionM.processTextMessage, hc, hw, h1, h3, Nat.not_lt.mpr h2,
          SessionM.sendDisconnect, SessionM.sendImmediate, SessionM.createMessage,
          SessionM.isErrorDisconnectEff, SessionM.isDispatchEff, List.countP_cons]
      · simp [SessionM.processTextMessage, hc, hw, h1, Nat.not_le.mp h2,
          SessionM.sendDisconnect, SessionM.sendImmediate, SessionM.createMessage,
          SessionM.isErrorDisconnectEff, SessionM.isDispatchEff, List.countP_cons]
    · simp [SessionM.processTextMessage, hc, hw, h1,
        SessionM.sendDisconnect, SessionM.sendImmediate, SessionM.createMessage,
        SessionM.isErrorDisconnectEff, SessionM.isDispatchEff, List.countP_cons]
  · by_cases h1 : m.seq = s.lastClientSeq + 1
    · by_cases h2 : s.lastServerSeq < m.serverseq
      · simp [SessionM.processTextMessage, hc, h1, h2,
          SessionM.sendDisconnect, SessionM.sendImmediate, SessionM.createMessage]
      · by_cases h3 : m.id = s.clientSessionId
        · by_cases h4 : handlers m.ty <;>
            simp [SessionM.processTextMessage, hc, h1, h2, h3, h4,
              SessionM.sendDisconnect, SessionM.sendImmediate, SessionM.createMessage]
        · simp [SessionM.processTextMessage, hc, h1, h2, h3,
            SessionM.sendDisconnect, SessionM.sendImmediate, SessionM.createMessage]
    · simp [SessionM.processTextMessage, hc, h1,
        SessionM.sendDisconnect, SessionM.sendImmediate, SessionM.createMessage]

/-- C1 witness: a fully valid first message on a fresh session is accepted
and dispatched, with `lastClientSeq` updated to 1. -/
theorem c1_witness :
    SessionM.processTextMessage (fun ty => ty == "open") ⟨1, 0, "S1", "open"⟩
        (SessionM.freshState "S1") =
      ⟨{ SessionM.freshState "S1" with lastClientSeq := 1 },
       [SessionM.Eff.dispatch "open"], []⟩ := by
  have h := (c1_processTextMessage_validation (fun ty => ty == "open")
    ⟨1, 0, "S1", "open"⟩ (SessionM.freshState "S1") rfl rfl).1 rfl (by decide) rfl
  simpa using h

/-- C1 counterexample: a message with a valid seq but a wrong session id is
rejected (one `error` disconnect, no dispatch), yet `lastClientSeq` has
moved from 0 to 1 -- the code updates it before the serverseq and id
checks, contradicting the claim that a rejected message leaves the
sequence state unchanged. -/
theorem c1_counterexample :
    (SessionM.processTextMessage (fun _ => true) ⟨1, 0, "S2", "open"⟩
        (SessionM.freshState "S1")).state.lastClientSeq = 1 ∧
    (SessionM.freshState "S1").lastClientSeq = 0 ∧
    (SessionM.processTextMessage (fun _ => true) ⟨1, 0, "S2", "open"⟩
        (SessionM.freshState "S1")).effs.countP SessionM.isErrorDisconnectEff = 1 ∧
    (SessionM.processTextMessage (fun _ => true) ⟨1, 0, "S2", "open"⟩
        (SessionM.freshState "S1")).effs.countP SessionM.isDispatchEff = 0 := by
  decide

/-- C5: on a session that is playing agent audio and is not disconnecting,
not closed, not capturing DTMF, and whose socket is open, an inbound binary
frame sends exactly one urgent `barge_in` event as the very first effect
(before the frame is forwarded to the agent bridge), bypassing the message
queue, and clears `isAudioPlaying`. -/
theorem c5_barge_in_urgent (s : SessionM.State) (frame : List ℕ)
    (hp : s.isAudioPlaying = true) (hd : s.disconnecting = false)
    (hc : s.closed = false) (hdt : s.isCapturingDTMF = false)
    (hw : s.wsOpen = true) :
    (SessionM.processBinaryMessage s frame).state.isAudioPlaying = false ∧
    (SessionM.processBinaryMessage s frame).effs =
      SessionM.Eff.wsWrite (SessionM.bargeMsg s) ::
        (if s.bridgeExists && s.bridgeConnected then
          [SessionM.Eff.bridgeAudio frame] else []) ∧
    (SessionM.processBinaryMessage s frame).created = [SessionM.bargeMsg s] ∧
    (SessionM.processBinaryMessage s frame).state.messageQueue = s.messageQueue := by
  simp [SessionM.processBinaryMessage, SessionM.sendBargeIn, SessionM.sendImmediate,
    SessionM.bargeMsg, SessionM.createMessage, hp, hd, hc, hdt, hw]

/-- C5 witness: the barge-in behaviour at a concrete playing session. -/
theorem c5_witness :
    (SessionM.processBinaryMessage
        { SessionM.freshState "S1" with isAudioPlaying := true } [0, 1]).state.isAudioPlaying =
      false ∧
    (SessionM.processBinaryMessage
        { SessionM.freshState "S1" with isAudioPlaying := true } [0, 1]).effs =
      SessionM.Eff.wsWrite
          (SessionM.bargeMsg { SessionM.freshState "S1" with isAudioPlaying := true }) ::
        (if ({ SessionM.freshState "S1" with isAudioPlaying := true } :
              SessionM.State).bridgeExists &&
            ({ SessionM.freshState "S1" with isAudioPlaying := true } :
              SessionM.State).bridgeConnected
         then [SessionM.Eff.bridgeAudio [0, 1]] else []) ∧
    (SessionM.processBinaryMessage
        { SessionM.freshState "S1" with isAudioPlaying := true } [0, 1]).created =
      [SessionM.bargeMsg { SessionM.freshState "S1" with isAudioPlaying := true }] ∧
    (SessionM.processBinaryMessage
        { SessionM.freshState "S1" with isAudioPlaying := true } [0, 1]).state.messageQueue =
      ({ SessionM.freshState "S1" with isAudioPlaying := true } :
        SessionM.State).messageQueue :=
  c5_barge_in_urgent _ _ rfl rfl rfl rfl rfl

/-- C6 (amended): `close` is idempotent (a second call performs no state
change and releases no resource, so the agent bridge is disconnected at most
once) and `closed` is terminal (no operation ever resets it); once closed,
`processTextMessage`, `processBinaryMessage` and `processDTMF` are complete
no-ops, and no session operation emits any socket, bridge or DTMF effect;
the direct send operations, however, are not state no-ops on a closed
session (see the counterexample). -/
theorem c6_close_idempotent_closed_terminal :
    (∀ s : SessionM.State,
      (SessionM.close s).state.closed = true ∧
      SessionM.close ((SessionM.close s).state) = ⟨(SessionM.close s).state, [], []⟩ ∧
      (SessionM.close s).effs.countP (fun e => e == SessionM.Eff.bridgeDisconnect) ≤ 1) ∧
    (∀ s : SessionM.State, s.closed = true →
      (∀ (handlers : String → Bool) (m : SessionM.InMsg),
        SessionM.processTextMessage handlers m s = ⟨s, [], []⟩) ∧
      (∀ frame : List ℕ, SessionM.processBinaryMessage s frame = ⟨s, [], []⟩) ∧
      (∀ d : String, SessionM.processDTMF s d = ⟨s, [], []⟩) ∧
      SessionM.close s = ⟨s, [], []⟩) ∧
    (∀ (op : SessionM.Op) (s : SessionM.State), s.closed = true →
      (SessionM.step op s).state.closed = true ∧
      (SessionM.step op s).effs.all (fun e => !SessionM.isWireEff e)) := by
  refine ⟨?_, ?_, ?_⟩
  · intro s
    by_cases hc : s.closed
    · simp [SessionM.close, hc]
    · simp only [Bool.not_eq_true] at hc
      refine ⟨by simp [SessionM.close, hc], by simp [SessionM.close, hc], ?_⟩
      simp [SessionM.close, hc, List.countP_append, List.countP_cons]
      split <;> split <;> split <;> simp
  · intro s hc
    refine ⟨?_, ?_, ?_, ?_⟩
    · intro handlers m; simp [SessionM.processTextMessage, hc]
    · intro frame; simp [SessionM.processBinaryMessage, hc]
    · intro d; simp [SessionM.processDTMF, hc]
    · simp [SessionM.close, hc]
  · intro op s hc
    cases op <;>
      simp [SessionM.step, SessionM.processTextMessage, SessionM.processBinaryMessage,
        SessionM.processDTMF, SessionM.close, SessionM.sendTurnResponse,
        SessionM.sendBargeIn, SessionM.sendDisconnect, SessionM.sendClosed,
        SessionM.sendTranscription, SessionM.sendTranscriptionImmediate,
        SessionM.transcriptTimerFire, SessionM.drainQueue, SessionM.queueMessage,
        SessionM.createMessage, SessionM.sendImmediate, SessionM.isWireEff, hc] <;>
      (repeat' split) <;> (try simp [SessionM.isWireEff])

/-- C6 witness: concrete closed-session no-ops and the terminal flag, and
the empty effect list of a second close. -/
theorem c6_witness :
    SessionM.processBinaryMessage { SessionM.freshState "S1" with closed := true } [1, 2] =
      ⟨{ SessionM.freshState "S1" with closed := true }, [], []⟩ ∧
    (SessionM.step SessionM.Op.bargeIn
        { SessionM.freshState "S1" with closed := true }).state.closed = true ∧
    (SessionM.close ((SessionM.close (SessionM.freshState "S1")).state)).effs = [] := by
  refine ⟨(c6_close_idempotent_closed_terminal.2.1 _ rfl).2.1 [1, 2],
    (c6_close_idempotent_closed_terminal.2.2 SessionM.Op.bargeIn _ rfl).1, ?_⟩
  have h := (c6_close_idempotent_closed_terminal.1 (SessionM.freshState "S1")).2.1
  rw [h]

/-- C6 counterexample: on an already-closed session, `sendBargeIn` writes
nothing to the socket but still increments `lastServerSeq` through
`createMessage` -- a closed session's send operations are not no-ops on the
session state, contradicting the claim. -/
theorem c6_counterexample :
    (SessionM.sendBargeIn { SessionM.freshState "S1" with closed := true }).state.lastServerSeq = 1 ∧
    ({ SessionM.freshState "S1" with closed := true } : SessionM.State).lastServerSeq = 0 ∧
    (SessionM.sendBargeIn { SessionM.freshState "S1" with closed := true }).effs = [] := by
  decide

/-- C7 (amended): in the debounced transcript path (with a negotiated
channel), a final transcript is flushed immediately (created and queued,
with the send time recorded) but does NOT cancel a pending delayed-flush
timer -- the timer survives the final flush; a non-final transcript is
flushed immediately when the minimum 50 ms interval has elapsed (cancelling
any pending timer), and otherwise creates nothing and schedules a single
delayed flush for exactly the remaining interval, overwriting the buffered
transcript and any previously scheduled timer. -/
theorem c7_transcript_debounce (s : SessionM.State) (now : ℕ) (t : String)
    (c : ℚ) (role : Option String) (hch : s.selectedChannel = true) :
    ((SessionM.sendTranscription s now t c true role).created.length = 1 ∧
     (SessionM.sendTranscription s now t c true role).state.messageQueue =
       s.messageQueue ++ (SessionM.sendTranscription s now t c true role).created ∧
     (SessionM.sendTranscription s now t c true role).state.lastTranscriptSent = now ∧
     (SessionM.sendTranscription s now t c true role).state.transcriptTimer =
       s.transcriptTimer) ∧
    (s.lastTranscriptSent + 50 ≤ now →
      (SessionM.sendTranscription s now t c false role).created.length = 1 ∧
      (SessionM.sendTranscription s now t c false role).state.messageQueue =
        s.messageQueue ++ (SessionM.sendTranscription s now t c false role).created ∧
      (SessionM.sendTranscription s now t c false role).state.lastTranscriptSent = now ∧
      (SessionM.sendTranscription s now t c false role).state.transcriptTimer = none) ∧
    (now < s.lastTranscriptSent + 50 →
      (SessionM.sendTranscription s now t c false role).created = [] ∧
      (SessionM.sendTranscription s now t c false role).state.transcriptTimer =
        some (s.lastTranscriptSent + 50 - now) ∧
      (SessionM.sendTranscription s now t c false role).state.transcriptBuffer =
        some ⟨t, c, false, role⟩ ∧
      (SessionM.sendTranscription s now t c false role).state.messageQueue =
        s.messageQueue) := by
  refine ⟨?_, ?_, ?_⟩
  · simp [SessionM.sendTranscription, SessionM.sendTranscriptionImmediate,
      SessionM.createMessage, SessionM.queueMessage, hch]
  · intro hel
    simp [SessionM.sendTranscription, SessionM.sendTranscriptionImmediate,
      SessionM.createMessage, SessionM.queueMessage, hch, hel]
  · intro hlt
    simp [SessionM.sendTranscription, SessionM.sendTranscriptionImmediate,
      SessionM.createMessage, SessionM.queueMessage, hch, Nat.not_le.mpr hlt]

/-- C7 witness: the three debounce behaviours at a fresh session (channel
negotiated, last send at time 0): a final transcript at time 1000 flushes;
a non-final transcript at time 100 flushes with the timer cleared; a
non-final transcript at time 10 creates nothing and schedules a flush in
40 ms. -/
theorem c7_witness :
    (SessionM.sendTranscription (SessionM.freshState "S1") 1000 "hi" 1 true none).created.length = 1 ∧
    (SessionM.sendTranscription (SessionM.freshState "S1") 100 "hi" 1 false none).state.transcriptTimer = none ∧
    (SessionM.sendTranscription (SessionM.freshState "S1") 10 "hi" 1 false none).created = [] ∧
    (SessionM.sendTranscription (SessionM.freshState "S1") 10 "hi" 1 false none).state.transcriptTimer = some 40 :=
  ⟨(c7_transcript_debounce (SessionM.freshState "S1") 1000 "hi" 1 none rfl).1.1,
   ((c7_transcript_debounce (SessionM.freshState "S1") 100 "hi" 1 none rfl).2.1
      (by decide)).2.2.2,
   ((c7_transcript_debounce (SessionM.freshState "S1") 10 "hi" 1 none rfl).2.2
      (by decide)).1,
   ((c7_transcript_debounce (SessionM.freshState "S1") 10 "hi" 1 none rfl).2.2
      (by decide)).2.1⟩

/-- C7 counterexample: a final transcript arriving while a delayed flush is
pending leaves that pending timer in place -- the code returns from the
final-transcript branch before the `clearTimeout`, contradicting the claim
that a final transcript cancels any pending timer. -/
theorem c7_counterexample :
    (SessionM.sendTranscription
        { SessionM.freshState "S1" with transcriptTimer := some 7 }
        1000 "hello" 1 true none).state.transcriptTimer = some 7 ∧
    ({ SessionM.freshState "S1" with transcriptTimer := some 7 } :
      SessionM.State).transcriptTimer ≠ none := by
  decide

/-- Helper: one `sendAudio` call preserves the queue bound. -/
theorem uv_sendAudio_bound (st : UVQueue.UState) (c : List ℕ)
    (h : st.audioQueue.length ≤ UVQueue.maxAudioQueueSize) :
    (UVQueue.sendAudio st c).audioQueue.length ≤ UVQueue.maxAudioQueueSize := by
  simp only [UVQueue.sendAudio, UVQueue.maxAudioQueueSize] at *
  split
  · exact h
  · split
    · simp only [List.length_drop, List.length_append, List.length_cons,
        List.length_nil]
      omega
    · simp only [List.length_append, List.length_cons, List.length_nil] at *
      omega

/-- Helper: one audio-pump tick preserves the queue bound. -/
theorem uv_tick_bound (st : UVQueue.UState)
    (h : st.audioQueue.length ≤ UVQueue.maxAudioQueueSize) :
    (UVQueue.processAudioQueue st).1.audioQueue.length ≤ UVQueue.maxAudioQueueSize := by
  simp only [UVQueue.processAudioQueue, UVQueue.maxAudioQueueSize] at *
  split
  · exact h
  · split
    · simp_all
      omega
    · exact h

/-- Helper: the queue bound is an invariant of every interleaving of
`sendAudio` calls and pump ticks. -/
theorem runUOps_bound (ops : List UVQueue.UOp) : ∀ st : UVQueue.UState,
    st.audioQueue.length ≤ UVQueue.maxAudioQueueSize →
    (UVQueue.runUOps st ops).audioQueue.length ≤ UVQueue.maxAudioQueueSize := by
  induction ops with
  | nil => intro st h; simpa [UVQueue.runUOps] using h
  | cons op ops ih =>
    intro st h
    cases op with
    | uSend c => exact ih _ (uv_sendAudio_bound st c h)
    | uTick => exact ih _ (uv_tick_bound st h)

/-- C10: the audio queue feeding the agent bridge is bounded by
`maxAudioQueueSize` (10): the bound is preserved by every `sendAudio` call
and holds after any interleaving of calls and pump ticks from a fresh
service; when a chunk arrives with the queue already full, the oldest queued
chunk is dropped; and each pump tick delivers only the current head of the
queue, so a dropped chunk is never delivered to the agent. -/
theorem c10_audio_queue_bound :
    (∀ (st : UVQueue.UState) (c : List ℕ),
      st.audioQueue.length ≤ UVQueue.maxAudioQueueSize →
      (UVQueue.sendAudio st c).audioQueue.length ≤ UVQueue.maxAudioQueueSize) ∧
    (∀ ops : List UVQueue.UOp,
      (UVQueue.runUOps UVQueue.initU ops).audioQueue.length ≤
        UVQueue.maxAudioQueueSize) ∧
    (∀ (st : UVQueue.UState) (c : List ℕ),
      st.isConnected = true → st.hasWs = true →
      st.audioQueue.length = UVQueue.maxAudioQueueSize →
      (UVQueue.sendAudio st c).audioQueue = st.audioQueue.drop 1 ++ [c]) ∧
    (∀ (st : UVQueue.UState) (ch : List ℕ) (rest : List (List ℕ)),
      st.audioQueue = ch :: rest → st.isConnected = true →
      (UVQueue.processAudioQueue st).1.audioQueue = rest ∧
      (UVQueue.processAudioQueue st).2 =
        (if st.hasWs && st.wsOpen then
          [UVQueue.UEff.agentSend (AudioFx.acConvertPcmuToPcm16 ch)] else [])) := by
  refine ⟨uv_sendAudio_bound,
    fun ops => runUOps_bound ops _ (by simp [UVQueue.initU]), ?_, ?_⟩
  · intro st c h1 h2 h3
    simp only [UVQueue.sendAudio, h1, h2, Bool.not_true, Bool.or_self, if_neg,
      Bool.false_eq_true, not_false_eq_true]
    rw [if_pos (by simp [List.length_append, h3])]
    cases hq : st.audioQueue with
    | nil =>
      rw [hq] at h3
      simp [UVQueue.maxAudioQueueSize] at h3
    | cons x xs => simp
  · intro st ch rest hq hc
    simp [UVQueue.processAudioQueue, hq, hc]

/-- C10 witness: concrete instances of the bound, the overflow drop, and the
head-only delivery. -/
theorem c10_witness :
    (UVQueue.sendAudio UVQueue.initU [0]).audioQueue.length ≤
      UVQueue.maxAudioQueueSize ∧
    (UVQueue.sendAudio
        { UVQueue.initU with audioQueue := List.replicate 10 [7] } [9]).audioQueue =
      ({ UVQueue.initU with audioQueue := List.replicate 10 [7] } :
        UVQueue.UState).audioQueue.drop 1 ++ [[9]] ∧
    (UVQueue.processAudioQueue
        { UVQueue.initU with audioQueue := [[1], [2]] }).1.audioQueue = [[2]] :=
  ⟨c10_audio_queue_bound.1 UVQueue.initU [0] (by decide),
   c10_audio_queue_bound.2.2.1 _ [9] rfl rfl (by decide),
   (c10_audio_queue_bound.2.2.2 _ [1] [[2]] rfl rfl).1⟩

/-- Helper: unfolding of the smoothing loop on a non-empty frame. -/
theorem smoothGo_cons (a p x : ℝ) (rest : List ℝ) :
    AudioFx.smoothGo a p (x :: rest) =
      (a * x + (1 - a) * p) :: AudioFx.smoothGo a (a * x + (1 - a) * p) rest := rfl

/-- Helper: the smoothing loop preserves the frame length. -/
theorem smoothGo_length (a : ℝ) : ∀ (l : List ℝ) (p : ℝ),
    (AudioFx.smoothGo a p l).length = l.length
  | [], _ => rfl
  | x :: xs, p => by
    rw [smoothGo_cons]
    simp [smoothGo_length a xs]

/-- Helper: the defining recurrence of the smoothing loop, expressed on
optional indexing so that it needs no bounds hypotheses. -/
theorem smoothGo_getElem (a : ℝ) : ∀ (l : List ℝ) (p : ℝ) (i : ℕ),
    (AudioFx.smoothGo a p l)[i + 1]? =
      Option.map₂ (fun x prev => a * x + (1 - a) * prev) l[i + 1]?
        ((AudioFx.smoothGo a p l)[i]?)
  | [], p, i => by simp [AudioFx.smoothGo]
  | x :: xs, p, 0 => by
    rw [smoothGo_cons]
    simp only [List.getElem?_cons_succ, List.getElem?_cons_zero]
    cases xs with
    | nil => simp [AudioFx.smoothGo]
    | cons z zs => rw [smoothGo_cons]; simp
  | x :: xs, p, (j + 1) => by
    rw [smoothGo_cons]
    simp only [List.getElem?_cons_succ]
    exact smoothGo_getElem a xs _ j

/-- Helper: the first component of `applySmoothingFilter` is the smoothing
loop seeded with the carried sample. -/
theorem applySmoothingFilter_fst (l : List ℝ) (p : ℝ) :
    (AudioFx.applySmoothingFilter l p).1 = AudioFx.smoothGo 0.95 p l := rfl

/-- C4: the smoothing filter obeys `smoothed[0] = 0.95 * raw[0] + 0.05 * p`
on the carried previous sample `p` and
`smoothed[i] = 0.95 * raw[i] + 0.05 * smoothed[i-1]` for `i > 0`; the
returned carried state is the last smoothed sample; each conversion
direction updates only its own carried scalar (`lastInputSample` for
`convertPcmuToPcm16`, `lastOutputSample` for `convertPcm16ToPcmu`) to the
last smoothed sample of its frame and leaves the other direction's scalar
untouched; and the first smoothed sample of a second frame is determined by
`0.95 * raw2[0] + 0.05 * (last smoothed sample of frame 1)`. -/
theorem c4_smoothing_filter :
    (∀ (x : ℝ) (rest : List ℝ) (p : ℝ),
      (AudioFx.applySmoothingFilter (x :: rest) p).1.head? =
        some (0.95 * x + 0.05 * p)) ∧
    (∀ (raw : List ℝ) (p : ℝ) (i : ℕ),
      (AudioFx.applySmoothingFilter raw p).1[i + 1]? =
        Option.map₂ (fun x prev => 0.95 * x + 0.05 * prev) raw[i + 1]?
          ((AudioFx.applySmoothingFilter raw p).1[i]?)) ∧
    (∀ (raw : List ℝ) (p : ℝ),
      (AudioFx.applySmoothingFilter raw p).2 =
        (AudioFx.applySmoothingFilter raw p).1.getLastD p ∧
      (AudioFx.applySmoothingFilter raw p).1.length = raw.length) ∧
    (∀ (st : AudioFx.ServiceState) (buf : List ℕ),
      (AudioFx.convertPcmuToPcm16 st buf).1.lastOutputSample = st.lastOutputSample ∧
      (AudioFx.convertPcmuToPcm16 st buf).1.lastInputSample =
        (AudioFx.applySmoothingFilter
          (AudioFx.applySoftLimiting
            (AudioFx.applyNoiseGate
              (buf.map (fun b => ((G711.ulawToLinearSlow b : ℤ) : ℝ))) 50) 28000)
          st.lastInputSample).2) ∧
    (∀ (st : AudioFx.ServiceState) (buf : List ℕ),
      (AudioFx.convertPcm16ToPcmu st buf).1.lastInputSample = st.lastInputSample ∧
      (AudioFx.convertPcm16ToPcmu st buf).1.lastOutputSample =
        (AudioFx.applySmoothingFilter
          (AudioFx.applySoftLimiting
            (AudioFx.applyNoiseGate
              ((AudioFx.toLinearSamples buf).map (fun s => ((s : ℤ) : ℝ))) 50) 28000)
          st.lastOutputSample).2) ∧
    (∀ (frame1 : List ℝ) (p x : ℝ) (rest : List ℝ),
      (AudioFx.applySmoothingFilter (x :: rest)
          ((AudioFx.applySmoothingFilter frame1 p).2)).1.head? =
        some (0.95 * x + 0.05 * (AudioFx.applySmoothingFilter frame1 p).2)) := by
  have hfun : (fun (x prev : ℝ) => 0.95 * x + (1 - 0.95) * prev) =
      (fun (x prev : ℝ) => 0.95 * x + 0.05 * prev) := by
    funext x prev; norm_num
  refine ⟨?_, ?_, ?_, ?_, ?_, ?_⟩
  · intro x rest p
    rw [applySmoothingFilter_fst, smoothGo_cons]
    norm_num
  · intro raw p i
    rw [applySmoothingFilter_fst, smoothGo_getElem, hfun]
  · intro raw p
    exact ⟨rfl, by rw [applySmoothingFilter_fst, smoothGo_length]⟩
  · intro st buf; exact ⟨rfl, rfl⟩
  · intro st buf; exact ⟨rfl, rfl⟩
  · intro frame1 p x rest
    rw [applySmoothingFilter_fst, smoothGo_cons]
    norm_num

/-- Helper: the byte-pairing loop produces one sample per complete byte
pair, discarding the unpaired trailing byte of an odd-length buffer. -/
theorem toLinearSamples_length : ∀ bytes : List ℕ,
    (AudioFx.toLinearSamples bytes).length = bytes.length / 2
  | [] => by simp [AudioFx.toLinearSamples]
  | [b] => by simp [AudioFx.toLinearSamples]
  | lo :: hi :: rest => by
    simp only [AudioFx.toLinearSamples, List.length_cons,
      toLinearSamples_length rest]
    omega

/-- Helper: the PCM16-to-PCMU conversion always returns `floor(len / 2)`
mu-law bytes, for buffers of any parity. -/
theorem convertPcm16ToPcmu_length (st : AudioFx.ServiceState) (bytes : List ℕ) :
    (AudioFx.convertPcm16ToPcmu st bytes).2.length = bytes.length / 2 := by
  unfold AudioFx.convertPcm16ToPcmu
  rw [List.length_map, applySmoothingFilter_fst, smoothGo_length]
  unfold AudioFx.applySoftLimiting AudioFx.applyNoiseGate
  rw [List.length_map, List.length_map, List.length_map, toLinearSamples_length]

/-- C8 (amended): `convertPcm16ToPcmu` never fails on an odd-length linear
buffer; it silently drops the trailing byte, converting every input buffer
into exactly `floor(length / 2)` mu-law bytes (the conversion is total and
the repository defines no `InvalidFrame` error). -/
theorem c8_odd_length_truncation (st : AudioFx.ServiceState) (bytes : List ℕ) :
    (AudioFx.convertPcm16ToPcmu st bytes).2.length = bytes.length / 2 :=
  convertPcm16ToPcmu_length st bytes

/-- C8 counterexample: a 3-byte (odd-length) linear buffer is not rejected:
the conversion silently produces one mu-law byte, dropping the trailing
input byte, instead of failing with an `InvalidFrame` error. -/
theorem c8_counterexample :
    (AudioFx.convertPcm16ToPcmu ⟨0, 0⟩ [0, 0, 0]).2.length = 1 ∧
    ([0, 0, 0] : List ℕ).length % 2 = 1 := by
  rw [convertPcm16ToPcmu_length]
  norm_num

/-- Helper: `tanh 2` is positive. -/
theorem tanh_two_pos : 0 < Real.tanh 2 := by
  rw [Real.tanh_eq_sinh_div_cosh]
  exact div_pos (Real.sinh_pos_iff.mpr (by norm_num)) (Real.cosh_pos 2)

/-- Helper: `tanh 2` is strictly below 1. -/
theorem tanh_two_lt_one : Real.tanh 2 < 1 := by
  rw [Real.tanh_eq_sinh_div_cosh, div_lt_one (Real.cosh_pos 2)]
  exact Real.sinh_lt_cosh 2

/-- Helper: the tanh limiter maps a sample at twice the ceiling to
`tanh 2 * ceiling`. -/
theorem uvLimitSample_at_twice (L : ℝ) (hL : 0 < L) :
    AudioFx.uvLimitSample L (2 * L) = Real.tanh 2 * L := by
  unfold AudioFx.uvLimitSample
  rw [abs_of_pos (by linarith : (0 : ℝ) < 2 * L)]
  rw [if_pos (by linarith : L < 2 * L)]
  rw [if_pos (by linarith : (0 : ℝ) ≤ 2 * L)]
  rw [show (2 * L) / L = 2 by field_simp]
  ring

/-- Helper: the tanh limiter is odd at twice the ceiling. -/
theorem uvLimitSample_at_neg_twice (L : ℝ) (hL : 0 < L) :
    AudioFx.uvLimitSample L (-(2 * L)) = -(Real.tanh 2 * L) := by
  unfold AudioFx.uvLimitSample
  rw [abs_neg, abs_of_pos (by linarith : (0 : ℝ) < 2 * L)]
  rw [if_pos (by linarith : L < 2 * L)]
  rw [if_neg (by intro h; linarith : ¬ (0 : ℝ) ≤ -(2 * L))]
  rw [show (2 * L) / L = 2 by field_simp]
  ring

/-- Helper: the soft-knee limiter of `AudioConverter` maps a sample at twice
the threshold strictly between the threshold and the sample. -/
theorem acLimitSample_at_twice (T : ℤ) (hT : 2 ≤ T) :
    T < AudioFx.acLimitSample (T : ℚ) (2 * T) ∧
    AudioFx.acLimitSample (T : ℚ) (2 * T) < 2 * T := by
  have htq : (2 : ℚ) ≤ (T : ℚ) := by exact_mod_cast hT
  have h2 : ((2 * T : ℤ) : ℚ) = 2 * (T : ℚ) := by push_cast; ring
  unfold AudioFx.acLimitSample AudioFx.jsRoundQ
  rw [h2, abs_of_pos (by linarith : (0 : ℚ) < 2 * (T : ℚ))]
  rw [if_pos (by linarith : (T : ℚ) < 2 * (T : ℚ))]
  have hratio : (T : ℚ) / (2 * (T : ℚ)) = 1 / 2 := by
    rw [div_eq_iff (by linarith : (2 : ℚ) * (T : ℚ) ≠ 0)]; ring
  rw [hratio]
  have hval : 2 * (T : ℚ) * (1 / 2 + (1 - 1 / 2) * 0.3) = 13 / 10 * (T : ℚ) := by
    norm_num; ring
  simp only [hval]
  constructor
  · rw [Int.lt_iff_add_one_le, Int.le_floor]
    push_cast
    linarith
  · rw [Int.floor_lt]
    push_cast
    linarith

/-- Helper: the soft-knee limiter of `AudioConverter` on a negative sample
at twice the threshold: the output stays negative, strictly between the
sample and the negated threshold. -/
theorem acLimitSample_at_neg_twice (T : ℤ) (hT : 2 ≤ T) :
    AudioFx.acLimitSample (T : ℚ) (-(2 * T)) < -T ∧
    -(2 * T) < AudioFx.acLimitSample (T : ℚ) (-(2 * T)) := by
  have htq : (2 : ℚ) ≤ (T : ℚ) := by exact_mod_cast hT
  have h2 : ((-(2 * T) : ℤ) : ℚ) = -(2 * (T : ℚ)) := by push_cast; ring
  unfold AudioFx.acLimitSample AudioFx.jsRoundQ
  rw [h2, abs_neg, abs_of_pos (by linarith : (0 : ℚ) < 2 * (T : ℚ))]
  rw [if_pos (by linarith : (T : ℚ) < 2 * (T : ℚ))]
  have hratio : (T : ℚ) / (2 * (T : ℚ)) = 1 / 2 := by
    rw [div_eq_iff (by linarith : (2 : ℚ) * (T : ℚ) ≠ 0)]; ring
  rw [hratio]
  have hval : -(2 * (T : ℚ)) * (1 / 2 + (1 - 1 / 2) * 0.3) = -(13 / 10 * (T : ℚ)) := by
    norm_num; ring
  simp only [hval]
  constructor
  · rw [Int.floor_lt]
    push_cast
    linarith
  · rw [Int.lt_iff_add_one_le, Int.le_floor]
    push_cast
    linarith

/-- C9 (amended): both limiters pass in-range samples through unchanged and
preserve the input's sign on out-of-range samples.  At twice the ceiling the
two implementations differ: the tanh limiter of `UltravoxService` compresses
the sample to `tanh 2 * ceiling`, which is strictly BELOW the ceiling (so
never beyond it, but also not between ceiling and original), and is odd;
the soft-knee limiter of `AudioConverter` compresses it strictly between
the ceiling and the original magnitude, on both the positive and negative
side. -/
theorem c9_soft_limiters :
    (∀ (limit x : ℝ), |x| ≤ limit → AudioFx.uvLimitSample limit x = x) ∧
    (∀ limit : ℝ, 0 < limit →
      0 < AudioFx.uvLimitSample limit (2 * limit) ∧
      AudioFx.uvLimitSample limit (2 * limit) < limit ∧
      AudioFx.uvLimitSample limit (-(2 * limit)) =
        -(AudioFx.uvLimitSample limit (2 * limit))) ∧
    (∀ (threshold : ℚ) (x : ℤ), |(x : ℚ)| ≤ threshold →
      AudioFx.acLimitSample threshold x = x) ∧
    (∀ T : ℤ, 2 ≤ T →
      T < AudioFx.acLimitSample (T : ℚ) (2 * T) ∧
      AudioFx.acLimitSample (T : ℚ) (2 * T) < 2 * T ∧
      AudioFx.acLimitSample (T : ℚ) (-(2 * T)) < -T ∧
      -(2 * T) < AudioFx.acLimitSample (T : ℚ) (-(2 * T))) := by
  refine ⟨?_, ?_, ?_, ?_⟩
  · intro limit x h
    unfold AudioFx.uvLimitSample
    rw [if_neg (not_lt.mpr h)]
  · intro limit hL
    rw [uvLimitSample_at_twice limit hL, uvLimitSample_at_neg_twice limit hL]
    have h1 := tanh_two_pos
    have h2 := tanh_two_lt_one
    refine ⟨by positivity, ?_, rfl⟩
    calc Real.tanh 2 * limit < 1 * limit := mul_lt_mul_of_pos_right h2 hL
      _ = limit := one_mul limit
  · intro threshold x h
    unfold AudioFx.acLimitSample
    rw [if_neg (not_lt.mpr h)]
  · intro T hT
    exact ⟨(acLimitSample_at_twice T hT).1, (acLimitSample_at_twice T hT).2,
      (acLimitSample_at_neg_twice T hT).1, (acLimitSample_at_neg_twice T hT).2⟩

/-- C9 witness: concrete instances, at ceiling 1 for the tanh limiter and
threshold 3 for the soft-knee limiter. -/
theorem c9_witness :
    AudioFx.uvLimitSample 1 0 = 0 ∧
    (0 < AudioFx.uvLimitSample 1 (2 * 1) ∧
      AudioFx.uvLimitSample 1 (2 * 1) < 1) ∧
    AudioFx.acLimitSample ((3 : ℤ) : ℚ) 1 = 1 ∧
    ((3 : ℤ) < AudioFx.acLimitSample ((3 : ℤ) : ℚ) (2 * 3) ∧
      AudioFx.acLimitSample ((3 : ℤ) : ℚ) (2 * 3) < 2 * 3) :=
  ⟨c9_soft_limiters.1 1 0 (by norm_num),
   ⟨(c9_soft_limiters.2.1 1 (by norm_num)).1,
    (c9_soft_limiters.2.1 1 (by norm_num)).2.1⟩,
   c9_soft_limiters.2.2.1 ((3 : ℤ) : ℚ) 1 (by norm_num),
   ⟨(c9_soft_limiters.2.2.2 3 (by norm_num)).1,
    (c9_soft_limiters.2.2.2 3 (by norm_num)).2.1⟩⟩

/-- C9 counterexample: for the tanh limiter at its default ceiling 30000, a
sample at twice the ceiling (60000) is compressed to `tanh 2 * 30000`, which
is strictly BELOW the ceiling -- not strictly between the ceiling and the
original magnitude as the claim states for both implementations. -/
theorem c9_counterexample :
    AudioFx.uvLimitSample 30000 60000 < 30000 ∧ (30000 : ℝ) < 60000 := by
  have h : AudioFx.uvLimitSample 30000 60000 = Real.tanh 2 * 30000 := by
    rw [show (60000 : ℝ) = 2 * 30000 by norm_num]
    exact uvLimitSample_at_twice 30000 (by norm_num)
  rw [h]
  constructor
  · calc Real.tanh 2 * 30000 < 1 * 30000 :=
        mul_lt_mul_of_pos_right tanh_two_lt_one (by norm_num)
      _ = 30000 := one_mul _
  · norm_num
